import Mathlib

/-!
Verification of the module-composition mechanism of
`packages/server/src/@trpc/modules.test.ts.ts`.

The file under study defines:
  - the `Spread<TType, TWith>` mapped type (last-write-wins field merge),
  - `Module<TName>` descriptors: a symbol-valued `name` and an `init()`
    producing `{ injectPipeProps, builderProps }`,
  - `buildApi(modules)`: runs `modules.map(m => m.init())`, folds every
    `builderProps` record into one flat record with `Object.assign`,
    and returns `{ createBuilder: () => { throw new Error('Not implemented') } }`,
  - a type-level registry `MiddlewareModules` (declaration merging) with two
    entries, `core` (builder member `coreFn`) and `extension` (member `extFn`),
    and `Builder<TOptions>` = intersection of the registered entries'
    `builderProps`, so the builder type's member set is the union of the
    selected modules' member sets,
  - concrete `coreModule` / `extensionModule` values whose `init()` throws
    `new Error('Not implemented')`.

We model JavaScript records as association lists over keys that are either
strings or symbols (symbols are process-unique tokens, modelled as `Nat`),
exceptions as `Except RuntimeError`, and instrument `buildApi` with a log of
`init()` invocations so that invocation order and multiplicity are provable.
-/

namespace TrpcModules

/-- A JavaScript object key: a string, or a symbol (unique token id). -/
inductive JsKey where
  | str (s : String)
  | sym (id : Nat)
deriving DecidableEq, Repr

/-- A JavaScript record (object): association list of key-value pairs.
Objects built by property assignment have pairwise distinct keys. -/
abbrev Rec (α : Type) := List (JsKey × α)

/-- The keys of a record (`Object.keys` plus symbol keys). -/
def recKeys {α : Type} (r : Rec α) : List JsKey := r.map Prod.fst

/-- Property read `r[k]`: the value of the first entry with key `k`. -/
def recGet {α : Type} : Rec α → JsKey → Option α
  | [], _ => none
  | (k₁, v) :: rest, k => if k₁ = k then some v else recGet rest k

/-- Property write `r[k] = v`: update the entry with key `k` in place if it
exists, else append it — JavaScript object assignment semantics. -/
def setProp {α : Type} : Rec α → JsKey → α → Rec α
  | [], k, v => [(k, v)]
  | (k₁, v₁) :: rest, k, v =>
    if k₁ = k then (k, v) :: rest else (k₁, v₁) :: setProp rest k v

/-- `Object.assign(acc, src)`: copy each entry of `src` into `acc`, in order,
overwriting entries whose key is already present. -/
def objectAssign {α : Type} (acc src : Rec α) : Rec α :=
  src.foldl (fun r p => setProp r p.1 p.2) acc

/-- A thrown JavaScript error (we only track its message). -/
structure RuntimeError where
  message : String
deriving DecidableEq, Repr

/-- The error `new Error('Not implemented')` thrown throughout the file. -/
def notImplemented : RuntimeError := ⟨"Not implemented"⟩

/-- The result of `Module.init()`: the middleware pipe-prop injector and the
builder-properties record contributed by the module. Builder property values
are left at an arbitrary type `α` (in the source they are functions that no
runtime path ever reaches, since `createBuilder` throws). -/
structure InitResult (α : Type) where
  injectPipeProps : Unit → Rec α
  builderProps : Rec α

/-- A module descriptor: `{ name: TName; init(): {...} }`. The name is a
symbol; `init` may throw (the file's concrete modules do). -/
structure Module (α : Type) where
  name : Nat
  init : Unit → Except RuntimeError (InitResult α)

/-- `modules.map(m => m.init())`, instrumented: returns the ordered log of
module names whose `init` got invoked, and either the list of results or the
first thrown error (a throw aborts the surrounding `map`). -/
def runInits {α : Type} : List (Module α) → List Nat × Except RuntimeError (List (InitResult α))
  | [] => ([], .ok [])
  | m :: rest =>
    match m.init () with
    | .error e => ([m.name], .error e)
    | .ok r =>
      (m.name :: (runInits rest).1,
        match (runInits rest).2 with
        | .error e => .error e
        | .ok rs => .ok (r :: rs))

/-- The accumulation of lines 69-72 of the source: start from `{}` and
`Object.assign` each initialized module's `builderProps` into it, in order. -/
def buildBuilderProps {α : Type} (inits : List (InitResult α)) : Rec α :=
  inits.foldl (fun acc i => objectAssign acc i.builderProps) []

/-- The object `buildApi` returns. It has exactly one runtime property,
`createBuilder`; a builder value, were one ever produced, would be a record
of operations, but the source body is `throw new Error('Not implemented')`. -/
structure Api (α : Type) where
  createBuilder : Unit → Except RuntimeError (Rec α)

/-- `buildApi`, instrumented with the `init` invocation log: initialize every
module in order, fold the builder properties, and return the api object. The
folded `builderProps` record is bound but not part of the returned object,
exactly as in the source. -/
def buildApiTraced {α : Type} (modules : List (Module α)) :
    List Nat × Except RuntimeError (Api α) :=
  ((runInits modules).1,
    match (runInits modules).2 with
    | .error e => .error e
    | .ok inits =>
      let _builderProps := buildBuilderProps inits
      .ok ⟨fun _ => .error notImplemented⟩)

/-- `buildApi` as called by clients (the log dropped). -/
def buildApi {α : Type} (modules : List (Module α)) : Except RuntimeError (Api α) :=
  (buildApiTraced modules).2

/-- The log of `init` invocations a `buildApi` call performs. -/
def initLog {α : Type} (modules : List (Module α)) : List Nat :=
  (runInits modules).1

/-- The outcome of line 67, `modules.map(m => m.init())`. -/
def initResults {α : Type} (modules : List (Module α)) :
    Except RuntimeError (List (InitResult α)) :=
  (runInits modules).2

/-- The api object the source returns whenever no `init` throws. -/
def defaultApi {α : Type} : Api α := ⟨fun _ => .error notImplemented⟩

/-- The static constraint of `buildApi`'s signature: the `modules` parameter
has tuple type `[Module<any>, ...Module<any>[]]`, so the type checker accepts
a call exactly when the list is non-empty. -/
def buildApiSigAccepts {α : Type} (modules : List (Module α)) : Prop :=
  modules ≠ []

/-! ### The type-level side

`Spread<TType, TWith>` maps each key of `keyof TType | keyof TWith` to
`TWith[K]` when `K extends keyof TWith`, else to `TType[K]`. We model a type
record the same way as a runtime record (field name to a value of `α`, here
standing for a type expression) and `Spread` as the corresponding function. -/

/-- The field that `Spread<TType, TWith>` assigns to key `k`: `TWith`'s field
when `TWith` has one, else `TType`'s, else absent. -/
def spreadGet {α : Type} (ttype twith : Rec α) (k : JsKey) : Option α :=
  match recGet twith k with
  | some v => some v
  | none => recGet ttype k

/-- `Spread<TType, TWith>` as a record: its key set is
`keyof TType | keyof TWith` and each field is `spreadGet`. -/
def spread {α : Type} (ttype twith : Rec α) : Rec α :=
  (recKeys ttype ++ recKeys twith).dedup.filterMap
    (fun k => (spreadGet ttype twith k).map (fun v => (k, v)))

/-- The symbol `const core = Symbol('core')` (token id 0). -/
def core : Nat := 0

/-- The symbol `const extension = Symbol('extension')` (token id 1). -/
def extension : Nat := 1

/-- The member names of `MiddlewareModules[name]['builderProps']` after
declaration merging: the file registers exactly the `core` entry (whose
`CoreModuleBuilder` has the single member `coreFn`) and the `extension` entry
(whose `ExtensionModuleBuilder` has the single member `extFn`). -/
def middlewareModulesBuilderProps (name : Nat) : List JsKey :=
  if name = core then [.str "coreFn"]
  else if name = extension then [.str "extFn"]
  else []

/-- The member set of `Builder<TOptions>` when `TOptions['$module']` is the
union of the given module names: `UnionToIntersection` of the entries'
`builderProps`, whose members are the union of the entries' member sets. -/
def builderOps (names : List Nat) : List JsKey :=
  (names.map middlewareModulesBuilderProps).flatten

/-- The value `coreModule()` produces (lines 121-126): named by the `core`
symbol, with an `init` that throws `new Error('Not implemented')`. -/
def coreModule : Module String :=
  { name := core, init := fun _ => .error notImplemented }

/-- The value `extensionModule()` produces (lines 149-154): named by the
`extension` symbol, with an `init` that throws `new Error('Not implemented')`. -/
def extensionModule : Module String :=
  { name := extension, init := fun _ => .error notImplemented }

/-! ### Record lemmas -/

/-- Reading an absent key yields nothing. -/
theorem recGet_eq_none_of_not_mem {α : Type} (r : Rec α) (k : JsKey)
    (h : k ∉ recKeys r) : recGet r k = none := by
  induction r with
  | nil => rfl
  | cons p rest ih =>
    simp only [recKeys, List.map_cons, List.mem_cons] at h
    push_neg at h
    have hne : ¬ p.1 = k := by
      intro hk
      exact h.1 hk.symm
    simp only [recGet, if_neg hne]
    exact ih (by simpa [recKeys] using h.2)

/-- Reading a present key yields a value. -/
theorem recGet_isSome_of_mem {α : Type} (r : Rec α) (k : JsKey)
    (h : k ∈ recKeys r) : ∃ v, recGet r k = some v := by
  induction r with
  | nil => simp [recKeys] at h
  | cons p rest ih =>
    simp only [recKeys, List.map_cons, List.mem_cons] at h
    by_cases hk : p.1 = k
    · exact ⟨p.2, by simp [recGet, hk]⟩
    · rcases h with h | h
      · exact absurd h.symm hk
      · rcases ih (by simpa [recKeys] using h) with ⟨v, hv⟩
        exact ⟨v, by simp [recGet, hk, hv]⟩

/-- Key membership after a property write: the written key joins the key set. -/
theorem mem_recKeys_setProp {α : Type} (r : Rec α) (k k' : JsKey) (v : α) :
    k' ∈ recKeys (setProp r k v) ↔ k' ∈ recKeys r ∨ k' = k := by
  induction r with
  | nil => simp [setProp, recKeys]
  | cons p rest ih =>
    by_cases hk : p.1 = k
    · simp only [setProp, if_pos hk, recKeys, List.map_cons, List.mem_cons]
      rw [show (p.1, p.2).1 = p.1 from rfl] at *
      constructor
      · rintro (h | h)
        · exact Or.inr h
        · exact Or.inl (Or.inr h)
      · rintro ((h | h) | h)
        · exact Or.inl (hk ▸ h)
        · exact Or.inr h
        · exact Or.inl h
    · simp only [setProp, if_neg hk, recKeys, List.map_cons, List.mem_cons]
      have ih' : k' ∈ List.map Prod.fst (setProp rest k v) ↔
          k' ∈ List.map Prod.fst rest ∨ k' = k := ih
      constructor
      · rintro (h | h)
        · exact Or.inl (Or.inl h)
        · rcases ih'.mp h with h | h
          · exact Or.inl (Or.inr h)
          · exact Or.inr h
      · rintro ((h | h) | h)
        · exact Or.inl h
        · exact Or.inr (ih'.mpr (Or.inl h))
        · exact Or.inr (ih'.mpr (Or.inr h))

/-- Reading after a property write: the written key reads back the written
value, every other key is unaffected. -/
theorem recGet_setProp {α : Type} (r : Rec α) (k k' : JsKey) (v : α) :
    recGet (setProp r k v) k' = if k' = k then some v else recGet r k' := by
  induction r with
  | nil =>
    simp only [setProp, recGet]
    by_cases hk : k = k'
    · simp [hk]
    · rw [if_neg hk, if_neg (Ne.symm hk)]
  | cons p rest ih =>
    by_cases hpk : p.1 = k
    · simp only [setProp, if_pos hpk, recGet]
      by_cases hk : k = k'
      · simp [hk]
      · rw [if_neg hk, if_neg (Ne.symm hk)]
        have hpk' : ¬ p.1 = k' := by
          rw [hpk]
          exact hk
        rw [if_neg hpk']
    · simp only [setProp, if_neg hpk, recGet]
      by_cases hpk' : p.1 = k'
      · rw [if_pos hpk', if_pos hpk']
        have : ¬ k' = k := by
          intro h
          exact hpk (h ▸ hpk')
        rw [if_neg this]
      · rw [if_neg hpk', if_neg hpk', ih]

/-- Key membership after `Object.assign`: the union of the two key sets. -/
theorem mem_recKeys_objectAssign {α : Type} (acc src : Rec α) (k : JsKey) :
    k ∈ recKeys (objectAssign acc src) ↔ k ∈ recKeys acc ∨ k ∈ recKeys src := by
  induction src generalizing acc with
  | nil => simp [objectAssign, recKeys]
  | cons p rest ih =>
    simp only [objectAssign, List.foldl_cons] at *
    rw [ih (setProp acc p.1 p.2), mem_recKeys_setProp]
    simp only [recKeys, List.map_cons, List.mem_cons]
    tauto

/-- Reading after `Object.assign` when the source record has distinct keys:
the source's field wins where it has one, the accumulator's otherwise. -/
theorem recGet_objectAssign {α : Type} (acc src : Rec α) (k : JsKey)
    (hsrc : (recKeys src).Nodup) :
    recGet (objectAssign acc src) k = (recGet src k).orElse (fun _ => recGet acc k) := by
  induction src generalizing acc with
  | nil => simp [objectAssign, recGet]
  | cons p rest ih =>
    simp only [recKeys, List.map_cons, List.nodup_cons] at hsrc
    simp only [objectAssign, List.foldl_cons]
    rw [show List.foldl (fun r q => setProp r q.1 q.2) (setProp acc p.1 p.2) rest =
          objectAssign (setProp acc p.1 p.2) rest from rfl]
    rw [ih (setProp acc p.1 p.2) hsrc.2]
    by_cases hk : k = p.1
    · have hnone : recGet rest k = none := by
        apply recGet_eq_none_of_not_mem
        rw [hk]
        simpa [recKeys] using hsrc.1
      simp only [recGet, if_pos hk.symm, hnone, recGet_setProp, if_pos hk]
      rfl
    · have hne : ¬ p.1 = k := by
        intro h
        exact hk h.symm
      simp only [recGet, if_neg hne]
      rw [recGet_setProp, if_neg hk]

/-- Reading a record assembled from a key list by an optional field function:
the field function's answer on listed keys, nothing elsewhere. -/
theorem recGet_filterMap_keys {α : Type} (f : JsKey → Option α) (l : List JsKey) (k : JsKey) :
    recGet (l.filterMap (fun k₁ => (f k₁).map (fun v => (k₁, v)))) k =
      if k ∈ l then f k else none := by
  induction l with
  | nil => simp [recGet]
  | cons a l ih =>
    cases hfa : f a with
    | none =>
      simp only [List.filterMap_cons, hfa, Option.map_none']
      rw [ih]
      by_cases hk : k = a
      · subst hk
        by_cases hl : k ∈ l
        · simp [hl]
        · simp [hl, hfa]
      · simp [List.mem_cons, hk]
    | some v =>
      simp only [List.filterMap_cons, hfa, Option.map_some']
      by_cases hk : a = k
      · subst hk
        simp [recGet, hfa]
      · simp only [recGet, if_neg hk, ih]
        have hk' : ¬ k = a := fun h => hk h.symm
        simp [List.mem_cons, hk']

/-- Reading a field of `Spread<TType, TWith>`: the `TWith` field wins where
present, the `TType` field otherwise. -/
theorem recGet_spread {α : Type} (ttype twith : Rec α) (k : JsKey) :
    recGet (spread ttype twith) k = spreadGet ttype twith k := by
  unfold spread
  rw [recGet_filterMap_keys]
  by_cases hk : k ∈ (recKeys ttype ++ recKeys twith).dedup
  · rw [if_pos hk]
  · rw [if_neg hk]
    rw [List.mem_dedup, List.mem_append] at hk
    push_neg at hk
    simp [spreadGet, recGet_eq_none_of_not_mem _ _ hk.1, recGet_eq_none_of_not_mem _ _ hk.2]

/-- Key membership in the builder-properties fold: a key is present exactly
when the accumulator or some initialized module contributed it. -/
theorem mem_recKeys_foldAssign {α : Type} (rs : List (InitResult α)) (acc : Rec α) (k : JsKey) :
    k ∈ recKeys (rs.foldl (fun a i => objectAssign a i.builderProps) acc) ↔
      k ∈ recKeys acc ∨ ∃ r ∈ rs, k ∈ recKeys r.builderProps := by
  induction rs generalizing acc with
  | nil => simp
  | cons r rs ih =>
    simp only [List.foldl_cons]
    rw [ih, mem_recKeys_objectAssign]
    constructor
    · rintro ((h | h) | ⟨r', hr', h⟩)
      · exact Or.inl h
      · exact Or.inr ⟨r, List.mem_cons_self r rs, h⟩
      · exact Or.inr ⟨r', List.mem_cons_of_mem r hr', h⟩
    · rintro (h | ⟨r', hr', h⟩)
      · exact Or.inl (Or.inl h)
      · rcases List.mem_cons.mp hr' with hr' | hr'
        · exact Or.inl (Or.inr (hr' ▸ h))
        · exact Or.inr ⟨r', hr', h⟩

/-- Key membership in the accumulated `builderProps` record: exactly the keys
some initialized module contributed. -/
theorem mem_recKeys_buildBuilderProps {α : Type} (rs : List (InitResult α)) (k : JsKey) :
    k ∈ recKeys (buildBuilderProps rs) ↔ ∃ r ∈ rs, k ∈ recKeys r.builderProps := by
  unfold buildBuilderProps
  rw [mem_recKeys_foldAssign]
  simp [recKeys]

/-- When every `init` succeeds, the invocation log lists every module's name,
in input order, and one result is collected per module. -/
theorem runInits_log_of_ok {α : Type} (ms : List (Module α)) (rs : List (InitResult α))
    (h : (runInits ms).2 = .ok rs) :
    (runInits ms).1 = ms.map (fun m => m.name) ∧ rs.length = ms.length := by
  induction ms generalizing rs with
  | nil =>
    simp only [runInits] at h ⊢
    cases h
    simp
  | cons m rest ih =>
    cases hinit : m.init () with
    | error e =>
      rw [show runInits (m :: rest) = ([m.name], .error e) by unfold runInits; rw [hinit]] at h
      cases h
    | ok r =>
      have hun : runInits (m :: rest) =
          (m.name :: (runInits rest).1,
            match (runInits rest).2 with
            | .error e => .error e
            | .ok rs₁ => .ok (r :: rs₁)) := by
        simp only [runInits, hinit]
      rw [hun] at h
      cases hrest : (runInits rest).2 with
      | error e =>
        rw [hrest] at h
        cases h
      | ok rs₁ =>
        rw [hrest] at h
        simp only [Except.ok.injEq] at h
        obtain ⟨hlog, hlen⟩ := ih rs₁ hrest
        rw [hun, ← h]
        simp [hlog, hlen]

/-- `runInits` depends only on each module's name and the outcome of its
`init` call. -/
theorem runInits_congr {α : Type} : ∀ (ms₁ ms₂ : List (Module α)),
    ms₁.map (fun m => (m.name, m.init ())) = ms₂.map (fun m => (m.name, m.init ())) →
    runInits ms₁ = runInits ms₂
  | [], [], _ => rfl
  | [], _ :: _, h => by simp at h
  | _ :: _, [], h => by simp at h
  | m₁ :: t₁, m₂ :: t₂, h => by
    simp only [List.map_cons, List.cons.injEq, Prod.mk.injEq] at h
    obtain ⟨⟨hname, hinit⟩, htail⟩ := h
    have ih := runInits_congr t₁ t₂ htail
    unfold runInits
    rw [hname, hinit, ih]

/-- Whenever `buildApi` succeeds, the api object it hands back is the constant
object whose only property is the throwing `createBuilder`; the accumulated
`builderProps` record does not occur in it. -/
theorem buildApi_ok_eq_defaultApi {α : Type} (ms : List (Module α)) (api : Api α)
    (h : buildApi ms = .ok api) : api = defaultApi := by
  unfold buildApi buildApiTraced at h
  cases hres : (runInits ms).2 with
  | error e =>
    rw [hres] at h
    cases h
  | ok inits =>
    rw [hres] at h
    simp only [Except.ok.injEq] at h
    exact h.symm

/-- When every `init` succeeds, `buildApi` succeeds with the default api. -/
theorem buildApi_ok_of_initResults {α : Type} (ms : List (Module α))
    (rs : List (InitResult α)) (h : initResults ms = .ok rs) :
    buildApi ms = .ok defaultApi := by
  unfold initResults at h
  unfold buildApi buildApiTraced
  rw [h]
  rfl

/-- When a registration includes `coreModule` or `extensionModule` and every
other registered module throws nothing but `Not implemented`, line 67's
`modules.map(m => m.init())` aborts with `Not implemented`. -/
theorem runInits_error_of_mem_throwing (ms : List (Module String))
    (hmem : coreModule ∈ ms ∨ extensionModule ∈ ms)
    (herr : ∀ m ∈ ms, ∀ e, m.init () = .error e → e = notImplemented) :
    (runInits ms).2 = .error notImplemented := by
  induction ms with
  | nil => rcases hmem with h | h <;> simp at h
  | cons m rest ih =>
    cases hinit : m.init () with
    | error e =>
      have he : e = notImplemented := herr m (List.mem_cons_self m rest) e hinit
      simp only [runInits, hinit, he]
    | ok r =>
      have hrest : coreModule ∈ rest ∨ extensionModule ∈ rest := by
        rcases hmem with h | h
        · rcases List.mem_cons.mp h with h | h
          · exfalso
            rw [← h] at hinit
            simp [coreModule] at hinit
          · exact Or.inl h
        · rcases List.mem_cons.mp h with h | h
          · exfalso
            rw [← h] at hinit
            simp [extensionModule] at hinit
          · exact Or.inr h
      have herr' : ∀ m₁ ∈ rest, ∀ e, m₁.init () = .error e → e = notImplemented :=
        fun m₁ hm₁ => herr m₁ (List.mem_cons_of_mem m hm₁)
      have ihr := ih hrest herr'
      simp only [runInits, hinit, ihr]

/-! ### Concrete modules for witnesses and counterexamples -/

/-- A well-behaved module named by symbol token 10 contributing the single
operation `opA`. -/
def opAModule : Module String :=
  { name := 10,
    init := fun _ =>
      .ok { injectPipeProps := fun _ => [], builderProps := [(.str "opA", "implA")] } }

/-- The init result `opAModule` produces. -/
def opAInit : InitResult String :=
  { injectPipeProps := fun _ => [], builderProps := [(.str "opA", "implA")] }

/-- A well-behaved module named by symbol token 11 contributing the single
operation `opB`. -/
def opBModule : Module String :=
  { name := 11,
    init := fun _ =>
      .ok { injectPipeProps := fun _ => [], builderProps := [(.str "opB", "implB")] } }

/-- The init result `opBModule` produces. -/
def opBInit : InitResult String :=
  { injectPipeProps := fun _ => [], builderProps := [(.str "opB", "implB")] }

/-- A module named by symbol token 20 contributing operation `dup`. -/
def dupModuleA : Module String :=
  { name := 20,
    init := fun _ =>
      .ok { injectPipeProps := fun _ => [], builderProps := [(.str "dup", "fromA")] } }

/-- The init result `dupModuleA` produces. -/
def dupInitA : InitResult String :=
  { injectPipeProps := fun _ => [], builderProps := [(.str "dup", "fromA")] }

/-- A second module, named by symbol token 21, contributing the same
operation name `dup` with a different implementation value. -/
def dupModuleB : Module String :=
  { name := 21,
    init := fun _ =>
      .ok { injectPipeProps := fun _ => [], builderProps := [(.str "dup", "fromB")] } }

/-- The init result `dupModuleB` produces. -/
def dupInitB : InitResult String :=
  { injectPipeProps := fun _ => [], builderProps := [(.str "dup", "fromB")] }

/-- A base configuration record carrying field `x`. -/
def cfgBase : Rec String := [(.str "x", "fromBase")]

/-- A first configuration contribution carrying field `x`. -/
def cfgM1 : Rec String := [(.str "x", "fromM1")]

/-- A second configuration contribution carrying field `x`. -/
def cfgM2 : Rec String := [(.str "x", "fromM2")]

/-! ### The claims -/

/-- Claim C1: for a non-empty module list whose initialized capability
records have pairwise-disjoint key sets, a name is an operation of the
accumulated builder-properties record exactly when some module's `init`
contributed it — the composite's operation set is the union of the modules'
contributions, nothing missing and nothing extra. -/
theorem claim1_union_of_operation_names {α : Type} (ms : List (Module α))
    (rs : List (InitResult α)) (k : JsKey)
    (hne : ms ≠ [])
    (hok : initResults ms = .ok rs)
    (hdisj : rs.Pairwise
      (fun a b => ∀ k₁ ∈ recKeys a.builderProps, k₁ ∉ recKeys b.builderProps)) :
    k ∈ recKeys (buildBuilderProps rs) ↔ ∃ r ∈ rs, k ∈ recKeys r.builderProps :=
  mem_recKeys_buildBuilderProps rs k

/-- Witness for claim C1 at the disjoint two-module registration. -/
theorem claim1_witness :
    JsKey.str "opA" ∈ recKeys (buildBuilderProps [opAInit, opBInit]) ↔
      ∃ r ∈ [opAInit, opBInit], JsKey.str "opA" ∈ recKeys r.builderProps :=
  claim1_union_of_operation_names [opAModule, opBModule] [opAInit, opBInit]
    (JsKey.str "opA") (by simp) rfl
    (by
      refine List.Pairwise.cons ?_ (List.pairwise_singleton _ _)
      intro b hb
      rw [List.mem_singleton.mp hb]
      decide)

/-- Claim C2 is false on the code: registering `dupModuleA` then `dupModuleB`,
which both declare operation `dup`, raises no error of any kind — `buildApi`
returns the api object normally, and in the accumulated record the earlier
module's `dup` has been silently overwritten by the later one's. The file
defines no DuplicateCapabilityError. -/
theorem claim2_counterexample :
    buildApi [dupModuleA, dupModuleB] = .ok defaultApi ∧
      recGet (buildBuilderProps [dupInitA, dupInitB]) (.str "dup") = some "fromB" :=
  ⟨rfl, rfl⟩

/-- Claim C2 amended: when two registered modules contribute the same
operation name, registration succeeds with no duplicate-capability error, and
the accumulated record maps the colliding name to the later module's
contribution — the collision is silently resolved last-write-wins. -/
theorem claim2_last_write_wins {α : Type} (m₁ m₂ : Module α)
    (r₁ r₂ : InitResult α) (k : JsKey)
    (h₁ : m₁.init () = .ok r₁) (h₂ : m₂.init () = .ok r₂)
    (hnd : (recKeys r₂.builderProps).Nodup)
    (hk₁ : k ∈ recKeys r₁.builderProps) (hk₂ : k ∈ recKeys r₂.builderProps) :
    buildApi [m₁, m₂] = .ok defaultApi ∧
      recGet (buildBuilderProps [r₁, r₂]) k = recGet r₂.builderProps k := by
  constructor
  · apply buildApi_ok_of_initResults [m₁, m₂] [r₁, r₂]
    simp only [initResults, runInits, h₁, h₂]
  · unfold buildBuilderProps
    simp only [List.foldl_cons, List.foldl_nil]
    rw [recGet_objectAssign _ _ _ hnd]
    obtain ⟨v, hv⟩ := recGet_isSome_of_mem r₂.builderProps k hk₂
    rw [hv]
    rfl

/-- Witness for amended claim C2 at the colliding two-module registration. -/
theorem claim2_witness :
    buildApi [dupModuleA, dupModuleB] = .ok defaultApi ∧
      recGet (buildBuilderProps [dupInitA, dupInitB]) (.str "dup") =
        recGet dupInitB.builderProps (.str "dup") :=
  claim2_last_write_wins dupModuleA dupModuleB dupInitA dupInitB (.str "dup")
    rfl rfl (by decide) (by decide) (by decide)

/-- Claim C3's last clause is false on the code: the record accumulated on
lines 69-72 is keyed by the contributed operation names (here the string key
`opA`), not by the registering module's symbol name (token 10) — the
contributions of all modules are merged flat by `Object.assign`. -/
theorem claim3_counterexample :
    initResults [opAModule] = .ok [opAInit] ∧
      recKeys (buildBuilderProps [opAInit]) = [JsKey.str "opA"] ∧
      JsKey.sym opAModule.name ∉ recKeys (buildBuilderProps [opAInit]) :=
  ⟨rfl, rfl, by decide⟩

/-- Claim C3 amended: `buildApi` invokes each module's `init` exactly once,
in input-list order, and merges each one's capability contribution into a
single flat record keyed by operation name (not by module name). -/
theorem claim3_init_order_flat_merge {α : Type} (ms : List (Module α))
    (rs : List (InitResult α)) (k : JsKey)
    (hok : initResults ms = .ok rs) :
    initLog ms = ms.map (fun m => m.name) ∧
      (k ∈ recKeys (buildBuilderProps rs) ↔ ∃ r ∈ rs, k ∈ recKeys r.builderProps) :=
  ⟨(runInits_log_of_ok ms rs hok).1, mem_recKeys_buildBuilderProps rs k⟩

/-- Witness for amended claim C3 at the two-module registration. -/
theorem claim3_witness :
    initLog [opAModule, opBModule] = [opAModule, opBModule].map (fun m => m.name) ∧
      (JsKey.str "opB" ∈ recKeys (buildBuilderProps [opAInit, opBInit]) ↔
        ∃ r ∈ [opAInit, opBInit], JsKey.str "opB" ∈ recKeys r.builderProps) :=
  claim3_init_order_flat_merge [opAModule, opBModule] [opAInit, opBInit]
    (JsKey.str "opB") rfl

/-- Claim C4 is false on the code at the file's own core-only composition
(line 159): at runtime no builder is ever produced, because registration
itself already throws `Not implemented` inside `coreModule.init`; the file
defines no UnsupportedCapabilityError, and `builder.extFn()` is rejected by
the type checker (the `@ts-expect-error` on line 170), not at invocation. -/
theorem claim4_counterexample :
    buildApi [coreModule] = .error notImplemented :=
  rfl

/-- Claim C4 amended: the capability exposure holds at the type level — the
builder type computed for the core module alone has the member `coreFn` and
lacks `extFn` (so invoking `extFn` is a compile-time type error rather than a
runtime UnsupportedCapabilityError), the builder type for core plus extension
has both members — while at runtime even a successfully built api throws
`Not implemented` from `createBuilder`. -/
theorem claim4_static_capability_sets :
    (JsKey.str "coreFn" ∈ builderOps [core] ∧
      JsKey.str "extFn" ∉ builderOps [core]) ∧
    (JsKey.str "coreFn" ∈ builderOps [core, extension] ∧
      JsKey.str "extFn" ∈ builderOps [core, extension]) ∧
    (defaultApi : Api String).createBuilder () = .error notImplemented :=
  ⟨⟨by decide, by decide⟩, ⟨by decide, by decide⟩, rfl⟩

/-- Claim C5 is false on the code: the runtime function, applied to an empty
module list, raises nothing at all — it returns the api object; the file
defines no EmptyRegistrationError. -/
theorem claim5_counterexample :
    buildApi ([] : List (Module String)) = .ok defaultApi :=
  rfl

/-- Claim C5 amended: the zero-module registration is rejected only
statically — the parameter type `[Module<any>, ...Module<any>[]]` makes the
empty call a compile-time type error — while the runtime body applied to zero
modules produces a builder object without raising any error. -/
theorem claim5_empty_list_static_only :
    ¬ buildApiSigAccepts ([] : List (Module String)) ∧
      buildApi ([] : List (Module String)) = .ok defaultApi :=
  ⟨fun h => h rfl, rfl⟩

/-- Claim C6: every invocation of `createBuilder` on an api object returned
by `buildApi` throws `Not implemented`; the type argument is erased at
runtime and cannot influence this. -/
theorem claim6_createBuilder_throws {α : Type} (ms : List (Module α)) (api : Api α)
    (h : buildApi ms = .ok api) :
    api.createBuilder () = .error notImplemented := by
  rw [buildApi_ok_eq_defaultApi ms api h]
  rfl

/-- Witness for claim C6 at the one-module registration. -/
theorem claim6_witness :
    (defaultApi : Api String).createBuilder () = .error notImplemented :=
  claim6_createBuilder_throws [opAModule] defaultApi rfl

/-- Claim C7: when modules M1 then M2 both contribute configuration field
`x`, the left-to-right `Spread` merge of the configuration gives M2's `x`:
the merge is last-write-wins per field name. -/
theorem claim7_config_override {α : Type} (base c₁ c₂ : Rec α)
    (h₁ : JsKey.str "x" ∈ recKeys c₁) (h₂ : JsKey.str "x" ∈ recKeys c₂) :
    recGet (spread (spread base c₁) c₂) (JsKey.str "x") =
      recGet c₂ (JsKey.str "x") := by
  rw [recGet_spread]
  obtain ⟨v, hv⟩ := recGet_isSome_of_mem c₂ (JsKey.str "x") h₂
  unfold spreadGet
  rw [hv]

/-- Witness for claim C7 at the concrete configuration records. -/
theorem claim7_witness :
    recGet (spread (spread cfgBase cfgM1) cfgM2) (JsKey.str "x") =
      recGet cfgM2 (JsKey.str "x") :=
  claim7_config_override cfgBase cfgM1 cfgM2 (by decide) (by decide)

/-- Claim C8: `buildApi` is deterministic — the invocation trace, the
outcome, and the init results feeding the accumulated record depend only on
the modules' names and `init` outcomes, so two runs over the same module
list agree in operation set and configuration shape. -/
theorem claim8_deterministic {α : Type} (ms₁ ms₂ : List (Module α))
    (h : ms₁.map (fun m => (m.name, m.init ())) =
      ms₂.map (fun m => (m.name, m.init ()))) :
    buildApiTraced ms₁ = buildApiTraced ms₂ ∧ initResults ms₁ = initResults ms₂ := by
  have hrw := runInits_congr ms₁ ms₂ h
  constructor
  · unfold buildApiTraced
    rw [hrw]
  · unfold initResults
    rw [hrw]

/-- Witness for claim C8: two runs over the same one-module list. -/
theorem claim8_witness :
    buildApiTraced [opAModule] = buildApiTraced [opAModule] ∧
      initResults [opAModule] = initResults [opAModule] :=
  claim8_deterministic [opAModule] [opAModule] rfl

/-- Claim C9: a successful `buildApi` returns the constant api object whose
only property is the throwing `createBuilder`; the accumulated `builderProps`
record does not occur in the returned value, so no module-contributed
operation is reachable — let alone dispatchable — through it. -/
theorem claim9_props_discarded {α : Type} (ms : List (Module α)) (api : Api α)
    (h : buildApi ms = .ok api) :
    api = defaultApi ∧ api.createBuilder () = .error notImplemented := by
  have hd := buildApi_ok_eq_defaultApi ms api h
  refine ⟨hd, ?_⟩
  rw [hd]
  rfl

/-- Witness for claim C9 at the one-module registration. -/
theorem claim9_witness :
    (defaultApi : Api String) = defaultApi ∧
      (defaultApi : Api String).createBuilder () = .error notImplemented :=
  claim9_props_discarded [opBModule] defaultApi rfl

/-- Claim C10: the file's concrete `coreModule` and `extensionModule` have
`init` implementations that immediately throw `Not implemented`, so every
`buildApi` call containing either of them (alongside modules that throw
nothing other than `Not implemented`) aborts with exactly that error during
`modules.map(m => m.init())` — registration never completes and no
composition state is formed. -/
theorem claim10_registration_throws (ms : List (Module String))
    (hmem : coreModule ∈ ms ∨ extensionModule ∈ ms)
    (herr : ∀ m ∈ ms, ∀ e, m.init () = .error e → e = notImplemented) :
    buildApi ms = .error notImplemented := by
  have key := runInits_error_of_mem_throwing ms hmem herr
  unfold buildApi buildApiTraced
  rw [key]

/-- Witness for claim C10 at the file's core-plus-extension call (line 189). -/
theorem claim10_witness :
    buildApi [coreModule, extensionModule] = .error notImplemented :=
  claim10_registration_throws [coreModule, extensionModule]
    (Or.inl (List.mem_cons_self coreModule [extensionModule]))
    (by
      intro m hm e he
      rcases List.mem_cons.mp hm with h | h
      · rw [h] at he
        exact (Except.error.inj he).symm
      · rw [List.mem_singleton.mp h] at he
        exact (Except.error.inj he).symm)

end TrpcModules
